import Mathlib

/-!
Formal model of the Qilbee Mycelial Network data plane.

Shallow embedding of the routing, propagation, collection and
reinforcement code:

  services/shared/routing.py          (scoring, MMR selection, TTL checks)
  services/data_plane/router/main.py  (broadcast, collect, dynamic limit)
  services/data_plane/reinforcement/main.py
                                      (plasticity, credit assignment, decay)

Python floats are modelled as exact rationals; the transcendental
time-decay path (math.exp) is modelled over the reals.  Python max/min on
rationals are written as if-then-else so that concrete runs reduce inside
the kernel.
-/

/-! ## Rational helpers: Python builtin max and min on two arguments -/

/-- Python min(a, b): returns a when a is less than or equal to b. -/
def minQ (a b : ℚ) : ℚ := if a ≤ b then a else b

/-- Python max(a, b): returns a when a is greater than or equal to b. -/
def maxQ (a b : ℚ) : ℚ := if b ≤ a then a else b

/-! ## Reinforcement engine constants
    (services/data_plane/reinforcement/main.py, lines 36-47) -/

def ALPHA_POS : ℚ := 8 / 100
def ALPHA_NEG : ℚ := 4 / 100
def LAMBDA_DECAY : ℚ := 2 / 1000
def MIN_WEIGHT : ℚ := 1 / 100
def MAX_WEIGHT : ℚ := 3 / 2

/-- Plasticity rule from calculate_weight_delta (reinforcement main.py,
lines 180-199).  The current_weight argument is accepted and ignored,
exactly as in the source. -/
def calculate_weight_delta (outcome_score current_weight : ℚ) : ℚ :=
  ALPHA_POS * outcome_score - ALPHA_NEG * (1 - outcome_score) - LAMBDA_DECAY

/-- Weight clamp from clamp_weight (reinforcement main.py, lines 202-204):
max(MIN_WEIGHT, min(MAX_WEIGHT, weight)). -/
def clamp_weight (weight : ℚ) : ℚ := maxQ MIN_WEIGHT (minQ MAX_WEIGHT weight)

/-! ## Graph-store state for the outcome path

The rows touched by the outcome endpoint: the hyphae_edges table keyed by
(tenant_id, src, dst) and the nutrient_routes table. -/

structure EdgeKey where
  tenant_id : String
  src : String
  dst : String
deriving DecidableEq

structure EdgeRow where
  w : ℚ
  sim : ℚ
  r_success : ℚ
  r_decay : ℚ
  last_update : ℤ
deriving DecidableEq

structure RouteRow where
  tenant_id : String
  nutrient_id : String
  trace_id : String
  src_agent : String
  dst_agent : String
  hop_number : ℕ
  routing_score : ℚ
  outcome_score : Option ℚ
deriving DecidableEq

structure DB where
  edges : List (EdgeKey × EdgeRow)
  routes : List RouteRow
deriving DecidableEq

/-- Row lookup under the primary key, as in
SELECT ... FROM hyphae_edges WHERE tenant_id = $1 AND src = $2 AND dst = $3. -/
def findEdge (edges : List (EdgeKey × EdgeRow)) (k : EdgeKey) : Option EdgeRow :=
  (edges.find? (fun p => p.1 = k)).map Prod.snd

/-- Keyed row update, as in UPDATE hyphae_edges SET ... WHERE tenant_id AND src AND dst. -/
def updateEdge (edges : List (EdgeKey × EdgeRow)) (k : EdgeKey) (row : EdgeRow) :
    List (EdgeKey × EdgeRow) :=
  edges.map (fun p => if p.1 = k then (k, row) else p)

/-! ## Outcome request (reinforcement main.py, lines 58-100) -/

/-- Outcome report body.  Validation (model_post_init) guarantees that at
least one of outcome_score and outcome is present and that every score
lies in [0, 1]; the hop_outcomes dict is modelled as an association
list. -/
structure OutcomeRequest where
  trace_id : String
  outcome_score : Option ℚ
  outcome : Option ℚ
  hop_outcomes : List (String × ℚ)
deriving DecidableEq

/-- Uniform score accessor (property score, lines 78-85).  The
ValueError branch is unreachable for validated requests; the model
returns 0 there. -/
def OutcomeRequest.score (r : OutcomeRequest) : ℚ :=
  match r.outcome_score with
  | some s => s
  | none =>
    match r.outcome with
    | some s => s
    | none => 0

/-- Per-agent score with fallback to the uniform score
(get_agent_score, lines 87-91). -/
def OutcomeRequest.get_agent_score (r : OutcomeRequest) (agent_id : String) : ℚ :=
  match r.hop_outcomes.lookup agent_id with
  | some s => s
  | none => r.score

/-! ## Credit assignment (record_outcome, reinforcement main.py, lines 234-379) -/

/-- Row inserted by the lazy edge creation
(INSERT INTO hyphae_edges ... VALUES (..., 0.1, 0.0, 0.0, 0.0), lines 296-305). -/
def freshEdgeRow (now : ℤ) : EdgeRow :=
  { w := 1 / 10, sim := 0, r_success := 0, r_decay := 0, last_update := now }

/-- One iteration of the credit loop (lines 278-358): read the edge under
the caller tenant, create it lazily when absent, apply the plasticity rule,
clamp, persist, and write the hop score into the route log.  Note that the
route-log update (lines 336-346) matches on trace, src and dst only, with
no tenant filter, exactly as the SQL does. -/
def creditRoute (tenant_id : String) (request : OutcomeRequest) (now : ℤ)
    (db : DB) (route : RouteRow) : DB :=
  let hop_score := request.get_agent_score route.dst_agent
  let key : EdgeKey := ⟨tenant_id, route.src_agent, route.dst_agent⟩
  let ins :=
    match findEdge db.edges key with
    | some e => (db.edges, e)
    | none => (db.edges ++ [(key, freshEdgeRow now)], freshEdgeRow now)
  let edge := ins.2
  let old_weight := edge.w
  let delta := calculate_weight_delta hop_score old_weight
  let new_weight := clamp_weight (old_weight + delta)
  let updated : EdgeRow :=
    { w := new_weight, sim := edge.sim, r_success := edge.r_success + hop_score,
      r_decay := edge.r_decay + (1 - hop_score), last_update := now }
  { edges := updateEdge ins.1 key updated,
    routes := db.routes.map (fun rr =>
      if rr.trace_id = request.trace_id ∧ rr.src_agent = route.src_agent ∧
          rr.dst_agent = route.dst_agent
      then { rr with outcome_score := some hop_score } else rr) }

/-- Stable ascending insertion by hop number; models ORDER BY hop_number ASC. -/
def insertByHop (x : RouteRow) : List RouteRow → List RouteRow
  | [] => [x]
  | y :: ys => if y.hop_number < x.hop_number then y :: insertByHop x ys else x :: y :: ys

def sortByHop (l : List RouteRow) : List RouteRow := l.foldr insertByHop []

/-- Route fetch of record_outcome (lines 258-266):
SELECT ... FROM nutrient_routes WHERE trace_id = $1 ORDER BY hop_number ASC.
The filter is by trace id only; there is no tenant_id condition in the
source query. -/
def fetchRoutes (db : DB) (trace_id : String) : List RouteRow :=
  sortByHop (db.routes.filter (fun r => r.trace_id = trace_id))

inductive OutcomeResult where
  | notFound
  | ok (edges_updated : ℕ)
deriving DecidableEq

/-- Outcome endpoint (record_outcome, lines 234-379): fetch the route log
for the trace, answer 404 when empty, otherwise credit every route in hop
order. -/
def record_outcome (tenant_id : String) (request : OutcomeRequest) (now : ℤ)
    (db : DB) : DB × OutcomeResult :=
  match fetchRoutes db request.trace_id with
  | [] => (db, .notFound)
  | routes => (routes.foldl (creditRoute tenant_id request now) db, .ok routes.length)

/-! ## Outcome endpoint under a mid-loop database fault

The credit loop issues its writes one route at a time; each call on the
PostgresManager acquires its own pooled connection (shared/database.py,
lines 114-151) and no transaction spans the loop.  A connection fault
while processing route number fail_index leaves the updates of the routes
already processed in place; the blanket handler (lines 374-379) turns the
raised error into HTTP 500. -/

inductive OutcomeResultF where
  | notFound
  | ok (edges_updated : ℕ)
  | serverError
deriving DecidableEq

/-- Credit loop in which processing of the route at position fail_index
raises a database error.  The boolean result is false when the fault
fired. -/
def creditRoutesWithFault (tenant_id : String) (request : OutcomeRequest) (now : ℤ)
    (fail_index : ℕ) : List RouteRow → ℕ → DB → DB × Bool
  | [], _, db => (db, true)
  | r :: rs, i, db =>
    if i = fail_index then (db, false)
    else creditRoutesWithFault tenant_id request now fail_index rs (i + 1)
      (creditRoute tenant_id request now db r)

/-- Outcome endpoint run against a store whose connection fails while the
route at position fail_index is being processed. -/
def record_outcome_with_fault (tenant_id : String) (request : OutcomeRequest)
    (now : ℤ) (fail_index : ℕ) (db : DB) : DB × OutcomeResultF :=
  match fetchRoutes db request.trace_id with
  | [] => (db, .notFound)
  | routes =>
    let res := creditRoutesWithFault tenant_id request now fail_index routes 0 db
    (res.1, if res.2 then .ok routes.length else .serverError)

/-- Range invariant of the hyphae_edges table: every stored weight lies in
[MIN_WEIGHT, MAX_WEIGHT]. -/
def EdgesInRange (db : DB) : Prop :=
  ∀ p ∈ db.edges, MIN_WEIGHT ≤ p.2.w ∧ p.2.w ≤ MAX_WEIGHT

/-! ## Time-based decay (reinforcement main.py, lines 567-636)

This path multiplies by math.exp and is modelled over the reals. -/

noncomputable def TIME_DECAY_LAMBDA : ℝ := 1 / 100
noncomputable def STALE_EDGE_MIN_WEIGHT : ℝ := 2 / 100
noncomputable def STALE_EDGE_MAX_AGE_DAYS : ℝ := 30

/-- Exponential decay from calculate_time_decay (lines 571-585). -/
noncomputable def calculate_time_decay (current_weight days_since_update : ℝ) : ℝ :=
  current_weight * Real.exp (-TIME_DECAY_LAMBDA * days_since_update)

/-- Real-valued twin of clamp_weight, used on the decay path
(run_time_decay calls clamp_weight on the decayed float). -/
noncomputable def clamp_weightR (weight : ℝ) : ℝ := max (1 / 100) (min (3 / 2) weight)

inductive DecayAction where
  | delete
  | update (new_weight : ℝ)
  | keep

/-- Per-edge behaviour of the decay loop body (run_time_decay,
lines 608-634): clamp the decayed weight, delete when it is below
STALE_EDGE_MIN_WEIGHT and the edge is older than STALE_EDGE_MAX_AGE_DAYS,
else update when the clamped value differs from the stored one. -/
noncomputable def decayEdgeAction (w days_stale : ℝ) : DecayAction :=
  let new_weight := clamp_weightR (calculate_time_decay w days_stale)
  if new_weight < STALE_EDGE_MIN_WEIGHT ∧ days_stale > STALE_EDGE_MAX_AGE_DAYS then .delete
  else if new_weight ≠ w then .update new_weight
  else .keep

structure DecayEdge where
  tenant_id : String
  src : String
  dst : String
  w : ℝ
  last_update : ℝ

/-- Net effect of one run_time_decay pass (lines 588-636) on the
hyphae_edges table: the SQL fetch selects exactly the edges with
last_update older than one hour, days_stale is the age in days, and the
loop applies decayEdgeAction to each fetched edge by point deletes and
updates under the unique (tenant_id, src, dst) key. -/
noncomputable def run_time_decay (now : ℝ) (edges : List DecayEdge) : List DecayEdge :=
  edges.filterMap (fun e =>
    if e.last_update < now - 3600 then
      match decayEdgeAction e.w ((now - e.last_update) / 86400) with
      | .delete => none
      | .update nw => some { e with w := nw }
      | .keep => some e
    else some e)

/-! ## Shared routing score (services/shared/routing.py, lines 153-212)

calculate_routing_score combines the remapped cosine similarity computed
by cosine_similarity (lines 68-92), the learned edge weight, the demand
overlap computed by calculate_demand_overlap (lines 108-151) and a
capability boost.  The similarity and demand values are themselves
floating transcendental computations; they enter the model as the
arguments similarity and demand_overlap, and the combination logic of
lines 186-203 is embedded verbatim. -/

def CAPABILITY_BOOST_PER_MATCH : ℚ := 5 / 100
def CAPABILITY_BOOST_MAX_MATCHES : ℕ := 4
def LAMBDA_DIVERSITY : ℚ := 1 / 2

/-- np.clip(x, lo, hi) on scalars. -/
def np_clip (x lo hi : ℚ) : ℚ := maxQ lo (minQ hi x)

/-- Matching count of lines 187-190: the sum over the tool-hint LIST of
membership tests against the capability list, so a hint occurring twice
is counted twice. -/
def capability_matching_count (nutrient_tool_hints capabilities : List String) : ℕ :=
  (nutrient_tool_hints.filter (fun tool => tool ∈ capabilities)).length

/-- Proportional capability boost of lines 193-196. -/
def capability_boost (nutrient_tool_hints capabilities : List String) : ℚ :=
  CAPABILITY_BOOST_PER_MATCH *
    (min (capability_matching_count nutrient_tool_hints capabilities)
      CAPABILITY_BOOST_MAX_MATCHES : ℕ)

/-- Score combination of calculate_routing_score, lines 198-203. -/
def calculate_routing_score (similarity edge_weight demand_overlap : ℚ)
    (nutrient_tool_hints capabilities : List String) : ℚ :=
  np_clip (similarity * edge_weight * (1/2 + 1/2 * demand_overlap)
    + capability_boost nutrient_tool_hints capabilities) 0 2

/-- Modelled from the claim text of C8: the boost counts the SET of tool
hints intersected with the capabilities, so duplicate hints count once. -/
def capability_boost_specC8 (nutrient_tool_hints capabilities : List String) : ℚ :=
  CAPABILITY_BOOST_PER_MATCH *
    (min ((nutrient_tool_hints.dedup.filter (fun tool => tool ∈ capabilities)).length)
      CAPABILITY_BOOST_MAX_MATCHES : ℕ)

/-- Modelled from the claim text of C8: score with the set-based boost. -/
def routing_score_specC8 (similarity edge_weight demand_overlap : ℚ)
    (nutrient_tool_hints capabilities : List String) : ℚ :=
  np_clip (similarity * edge_weight * (1/2 + 1/2 * demand_overlap)
    + capability_boost_specC8 nutrient_tool_hints capabilities) 0 2

/-! ## MMR selection (services/shared/routing.py, lines 214-281)

Candidates are indexed 0, ..., n-1 in score-sorted input order; score i is
the total routing score of candidate i and sim i j is the precomputed
pairwise remapped-cosine similarity matrix of lines 242-248.  The inner
objective of line 270-271 is factored out as a function argument of the
loop so that the claim variant can reuse the loop skeleton. -/

/-- Python min over a nonempty sequence (line 270); 0 for the empty list,
which the loop never passes. -/
def listMinQ : List ℚ → ℚ
  | [] => 0
  | x :: xs => xs.foldl minQ x

/-- Python max over a nonempty sequence; 0 for the empty list. -/
def listMaxQ : List ℚ → ℚ
  | [] => 0
  | x :: xs => xs.foldl maxQ x

/-- MMR objective of lines 269-271: lambda times relevance minus
(1 - lambda) times the minimum similarity to the already selected. -/
def mmr_value (score : ℕ → ℚ) (sim : ℕ → ℕ → ℚ) (lambda_diversity : ℚ)
    (selected_indices : List ℕ) (c_idx : ℕ) : ℚ :=
  lambda_diversity * score c_idx -
    (1 - lambda_diversity) * listMinQ (selected_indices.map (fun s_idx => sim c_idx s_idx))

/-- Modelled from the claim text of C5: the penalty is the MAXIMUM
similarity to the already selected, not the minimum. -/
def mmr_value_specC5 (score : ℕ → ℚ) (sim : ℕ → ℕ → ℚ) (lambda_diversity : ℚ)
    (selected_indices : List ℕ) (c_idx : ℕ) : ℚ :=
  lambda_diversity * score c_idx -
    (1 - lambda_diversity) * listMaxQ (selected_indices.map (fun s_idx => sim c_idx s_idx))

/-- Inner argmax scan of lines 265-277: walk the candidate list keeping
the first strictly best element; return it with the remaining candidates
in order. -/
def pickBest (f : ℕ → ℚ) : List ℕ → Option (ℕ × List ℕ)
  | [] => none
  | x :: xs =>
    match pickBest f xs with
    | none => some (x, xs)
    | some (y, ys) => if f x < f y then some (y, x :: ys) else some (x, xs)

/-- Selection loop of lines 264-279: while fewer than k are selected and
candidates remain, move the objective-maximising candidate into the
selection.  The fuel argument is instantiated with the candidate count,
which bounds the number of iterations. -/
def mmr_loop (objective : List ℕ → ℕ → ℚ) (k : ℕ) :
    ℕ → List ℕ → List ℕ → List ℕ
  | 0, selected, _ => selected
  | fuel + 1, selected, candidates =>
    if selected.length < k then
      match pickBest (objective selected) candidates with
      | none => selected
      | some (c, rest) => mmr_loop objective k fuel (selected ++ [c]) rest
    else selected

/-- Stable descending insertion by score; models the stable Python sort
of line 258. -/
def insertByScoreDesc (score : ℕ → ℚ) (x : ℕ) : List ℕ → List ℕ
  | [] => [x]
  | y :: ys => if score x < score y then y :: insertByScoreDesc score x ys else x :: y :: ys

def sortByScoreDesc (score : ℕ → ℚ) (l : List ℕ) : List ℕ :=
  l.foldr (insertByScoreDesc score) []

/-- mmr_select of lines 214-281 over candidate indices 0, ..., n-1:
return everything when n is at most k, nothing when k is zero, else seed
with the top-scored candidate and run the MMR loop with the min-based
objective. -/
def mmr_select (score : ℕ → ℚ) (sim : ℕ → ℕ → ℚ) (n k : ℕ)
    (lambda_diversity : ℚ) : List ℕ :=
  if n ≤ k then List.range n
  else if k = 0 then []
  else
    match sortByScoreDesc score (List.range n) with
    | [] => []
    | first :: rest => mmr_loop (mmr_value score sim lambda_diversity) k rest.length [first] rest

/-- Modelled from the claim text of C5: identical selection skeleton with
the max-based penalty. -/
def mmr_select_specC5 (score : ℕ → ℚ) (sim : ℕ → ℕ → ℚ) (n k : ℕ)
    (lambda_diversity : ℚ) : List ℕ :=
  if n ≤ k then List.range n
  else if k = 0 then []
  else
    match sortByScoreDesc score (List.range n) with
    | [] => []
    | first :: rest =>
      mmr_loop (mmr_value_specC5 score sim lambda_diversity) k rest.length [first] rest

/-! ## TTL gate and error wrapping of the broadcast endpoint
    (router main.py, lines 390-524; shared/routing.py, lines 411-441) -/

/-- Raised or propagated exceptions of a handler, reduced to what the
transport reports: an HTTPException with its status code, or any other
exception. -/
inductive Exn where
  | http (status_code : ℕ)
  | generic
deriving DecidableEq

/-- TTLChecker.can_forward (shared/routing.py, lines 414-440).  age_sec is
the difference between the utcnow reading inside the checker and the
created_at argument; broadcast_nutrient passes created_at = utcnow(), so
age_sec is the nonnegative drift between the two clock reads. -/
def TTLChecker_can_forward (age_sec : ℚ) (nutrient_ttl_sec nutrient_max_hops : ℤ) : Bool :=
  if (nutrient_ttl_sec : ℚ) ≤ age_sec then false
  else if nutrient_max_hops ≤ 0 then false
  else true

/-- Body of the try block of broadcast_nutrient (lines 412-517): the TTL
gate raises HTTPException 409 when the nutrient cannot be forwarded; rest
stands for the remainder of the body. -/
def broadcast_try_body (age_sec : ℚ) (ttl_sec max_hops : ℤ)
    (rest : Except Exn Unit) : Except Exn Unit :=
  if TTLChecker_can_forward age_sec ttl_sec max_hops then rest
  else .error (.http 409)

/-- broadcast_nutrient including its exception handling (lines 519-524):
the single handler catches every Exception, HTTPException included, and
re-raises HTTPException 500. -/
def broadcast_nutrient (age_sec : ℚ) (ttl_sec max_hops : ℤ)
    (rest : Except Exn Unit) : Except Exn Unit :=
  match broadcast_try_body age_sec ttl_sec max_hops rest with
  | .ok a => .ok a
  | .error _ => .error (.http 500)

/-! ## Dynamic neighbour limit (router main.py, lines 180-211) -/

def MIN_NEIGHBOR_LIMIT : ℕ := 20
def MAX_NEIGHBOR_LIMIT : ℕ := 50
def EDGE_COUNT_CACHE_TTL_SEC : ℚ := 300

/-- Module-level _cached_edge_count dict (line 183): a single count and
timestamp for the whole process, not keyed by tenant. -/
structure EdgeCountCache where
  count : ℕ
  updated_at : Option ℚ
deriving DecidableEq

/-- The _get_dynamic_limit coroutine (lines 187-211).  edge_count_of gives
the per-tenant row count that SELECT COUNT(*) FROM hyphae_edges WHERE
tenant_id = $1 would return; now is the utcnow reading in seconds. -/
def get_dynamic_limit (edge_count_of : String → ℕ) (tenant_id : String)
    (now : ℚ) (cache : EdgeCountCache) : ℕ × EdgeCountCache :=
  let cache_valid :=
    match cache.updated_at with
    | none => false
    | some t => decide (now - t < EDGE_COUNT_CACHE_TTL_SEC)
  let cache2 := if cache_valid then cache
    else { count := edge_count_of tenant_id, updated_at := some now }
  (min MAX_NEIGHBOR_LIMIT (max MIN_NEIGHBOR_LIMIT (cache2.count / 10)), cache2)

/-! ## Collect diversification (router main.py, lines 553-599) -/

/-- Row shape returned by the hyphal_memory vector search of lines
559-572, already ranked by ascending embedding distance. -/
structure MemRow where
  id : String
  agent_id : String
  kind : String
  quality : ℚ
  similarity : ℚ
deriving DecidableEq

/-- Diversification walk of lines 585-597: admit the row when its agent
has not been seen OR fewer than top_k rows are admitted so far, then stop
as soon as top_k rows are admitted. -/
def diversify_walk (top_k : ℕ) : List MemRow → List String → List MemRow → List MemRow
  | [], _, diverse_results => diverse_results
  | result :: rest, seen_agents, diverse_results =>
    let step :=
      if result.agent_id ∉ seen_agents ∨ diverse_results.length < top_k then
        (result.agent_id :: seen_agents, diverse_results ++ [result])
      else (seen_agents, diverse_results)
    if top_k ≤ step.2.length then step.2
    else diversify_walk top_k rest step.1 step.2

/-- Result-selection step of collect_contexts (lines 583-599): run the
diversification walk when diversify is on and more rows than top_k were
fetched, else truncate to top_k. -/
def collect_select (diversify : Bool) (top_k : ℕ) (results : List MemRow) : List MemRow :=
  if diversify ∧ results.length > top_k then diversify_walk top_k results [] []
  else results.take top_k

/-! # Theorems -/

/-! ## Helper lemmas -/

theorem clamp_weight_lower (w : ℚ) : MIN_WEIGHT ≤ clamp_weight w := by
  unfold clamp_weight maxQ minQ MIN_WEIGHT MAX_WEIGHT
  split
  · split <;> norm_num <;> linarith
  · split <;> norm_num <;> linarith

theorem clamp_weight_upper (w : ℚ) : clamp_weight w ≤ MAX_WEIGHT := by
  unfold clamp_weight maxQ minQ MIN_WEIGHT MAX_WEIGHT
  split
  · split <;> norm_num <;> linarith
  · split <;> norm_num <;> linarith

theorem findEdge_updateEdge (edges : List (EdgeKey × EdgeRow)) (k : EdgeKey)
    (row e : EdgeRow) (h : findEdge edges k = some e) :
    findEdge (updateEdge edges k row) k = some row := by
  induction edges with
  | nil => simp [findEdge] at h
  | cons p t ih =>
    by_cases hp : p.1 = k
    · simp [findEdge, updateEdge, List.find?, hp]
    · have h2 : findEdge t k = some e := by
        simpa [findEdge, List.find?, hp] using h
      simpa [findEdge, updateEdge, List.find?, hp] using ih h2

/-! ## Claim C1: plasticity delta and persisted clamped weight -/

/-- C1: for every route record credited by an outcome report, with
effective score o in [0, 1] and current edge weight w, the engine computes
delta as 0.08 times o minus 0.04 times (1 minus o) minus 0.002 and
persists the new weight clamped to [0.01, 1.5]; at o equal to 0.9 the
delta is 0.066 and at o equal to 0.1 the delta is minus 0.030. -/
theorem C1_plasticity_update (tenant_id : String) (request : OutcomeRequest)
    (now : ℤ) (db : DB) (route : RouteRow) (e : EdgeRow)
    (hfind : findEdge db.edges ⟨tenant_id, route.src_agent, route.dst_agent⟩ = some e)
    (h0 : 0 ≤ request.get_agent_score route.dst_agent)
    (h1 : request.get_agent_score route.dst_agent ≤ 1) :
    findEdge (creditRoute tenant_id request now db route).edges
        ⟨tenant_id, route.src_agent, route.dst_agent⟩
      = some { w := maxQ (1/100) (minQ (3/2)
                 (e.w + (8/100 * request.get_agent_score route.dst_agent
                         - 4/100 * (1 - request.get_agent_score route.dst_agent)
                         - 2/1000))),
               sim := e.sim,
               r_success := e.r_success + request.get_agent_score route.dst_agent,
               r_decay := e.r_decay + (1 - request.get_agent_score route.dst_agent),
               last_update := now }
    ∧ calculate_weight_delta (9/10) e.w = 66/1000
    ∧ calculate_weight_delta (1/10) e.w = -(30/1000) := by
  refine ⟨?_, ?_, ?_⟩
  · simp only [creditRoute, hfind]
    rw [findEdge_updateEdge db.edges _ _ e hfind]
    simp [clamp_weight, calculate_weight_delta, ALPHA_POS, ALPHA_NEG,
      LAMBDA_DECAY, MIN_WEIGHT, MAX_WEIGHT]
  · unfold calculate_weight_delta ALPHA_POS ALPHA_NEG LAMBDA_DECAY
    norm_num
  · unfold calculate_weight_delta ALPHA_POS ALPHA_NEG LAMBDA_DECAY
    norm_num

/-- Witness for C1 at a concrete edge of weight one half and score 0.9. -/
theorem C1_plasticity_update_witness :
    findEdge (creditRoute "t" ⟨"tr", some (9/10), none, []⟩ 5
        ⟨[(⟨"t", "a", "b"⟩, ⟨1/2, 0, 0, 0, 0⟩)], []⟩
        ⟨"t", "n", "tr", "a", "b", 0, 1, none⟩).edges ⟨"t", "a", "b"⟩
      = some { w := maxQ (1/100) (minQ (3/2)
                 ((1:ℚ)/2 + (8/100 * (9/10) - 4/100 * (1 - 9/10) - 2/1000))),
               sim := 0, r_success := 0 + 9/10, r_decay := 0 + (1 - 9/10),
               last_update := 5 } := by
  have h := C1_plasticity_update "t" ⟨"tr", some (9/10), none, []⟩ 5
    ⟨[(⟨"t", "a", "b"⟩, ⟨1/2, 0, 0, 0, 0⟩)], []⟩
    ⟨"t", "n", "tr", "a", "b", 0, 1, none⟩ ⟨1/2, 0, 0, 0, 0⟩
    rfl (by norm_num [OutcomeRequest.get_agent_score, OutcomeRequest.score])
    (by norm_num [OutcomeRequest.get_agent_score, OutcomeRequest.score])
  simpa [OutcomeRequest.get_agent_score, OutcomeRequest.score] using h.1

/-! ## Claim C2: tenant filtering of the outcome path -/

/-- C2: refutation of the tenant-isolation statement for the outcome
endpoint.  A caller authenticated as tenant-a records an outcome for a
trace whose single route row belongs to tenant-b.  The route fetch (no
tenant filter in the WHERE clause) finds the foreign row, the handler
creates an edge keyed under tenant-a between the two tenant-b agents, and
the route-log update (again with no tenant filter) writes the outcome
score into the tenant-b row.  The source lines modelled are
reinforcement/main.py 255-266 and 335-346. -/
theorem C2_cross_tenant_outcome :
    record_outcome "tenant-a" ⟨"tr-1", some 1, none, []⟩ 0
        ⟨[], [⟨"tenant-b", "nutr-1", "tr-1", "agent-a", "agent-b", 0, 1, none⟩]⟩
      = (⟨[(⟨"tenant-a", "agent-a", "agent-b"⟩, ⟨89/500, 0, 1, 0, 0⟩)],
          [⟨"tenant-b", "nutr-1", "tr-1", "agent-a", "agent-b", 0, 1, some 1⟩]⟩,
         .ok 1) := by
  norm_num [record_outcome, fetchRoutes, sortByHop, insertByHop, creditRoute,
    findEdge, updateEdge, clamp_weight, calculate_weight_delta, maxQ, minQ,
    OutcomeRequest.get_agent_score, OutcomeRequest.score, freshEdgeRow,
    ALPHA_POS, ALPHA_NEG, LAMBDA_DECAY, MIN_WEIGHT, MAX_WEIGHT, List.lookup,
    List.filter, List.foldr, List.foldl]

/-! ## Claim C10: partial persistence under a mid-loop fault -/

theorem creditRoutesWithFault_take (tenant_id : String) (request : OutcomeRequest)
    (now : ℤ) :
    ∀ (l : List RouteRow) (i j : ℕ) (db : DB), j < l.length →
      creditRoutesWithFault tenant_id request now (i + j) l i db
        = ((l.take j).foldl (creditRoute tenant_id request now) db, false) := by
  intro l
  induction l with
  | nil => intro i j db h; simp at h
  | cons r rs ih =>
    intro i j db h
    cases j with
    | zero => simp [creditRoutesWithFault]
    | succ j2 =>
      have hne : ¬ (i = i + (j2 + 1)) := by omega
      have hlt : j2 < rs.length := by simpa using h
      have heq : i + (j2 + 1) = i + 1 + j2 := by omega
      simp only [creditRoutesWithFault, if_neg hne, List.take, List.foldl]
      rw [heq, ih (i + 1) j2 (creditRoute tenant_id request now db r) hlt]

/-- C10: outcome recording is not atomic over the route list.  When the
store faults while the route at position k is being processed (each write
runs on its own pooled connection, with no surrounding transaction), the
endpoint leaves exactly the credits of the first k routes persisted and
reports HTTP 500 through the blanket exception handler. -/
theorem C10_partial_persistence (tenant_id : String) (request : OutcomeRequest)
    (now : ℤ) (db : DB) (k : ℕ)
    (hk : k < (fetchRoutes db request.trace_id).length) :
    record_outcome_with_fault tenant_id request now k db
      = (((fetchRoutes db request.trace_id).take k).foldl
          (creditRoute tenant_id request now) db, .serverError) := by
  rcases hr : fetchRoutes db request.trace_id with _ | ⟨r, rs⟩
  · rw [hr] at hk; simp at hk
  · rw [hr] at hk
    have h0 := creditRoutesWithFault_take tenant_id request now (r :: rs) 0 k db hk
    rw [Nat.zero_add] at h0
    simp only [record_outcome_with_fault, hr, h0]
    simp

/-- Witness for C10: two route rows for the trace, fault at position 1;
the credit of the first route stays persisted and the result is the
server error. -/
theorem C10_partial_persistence_witness :
    record_outcome_with_fault "tenant-a" ⟨"tr-1", some 1, none, []⟩ 0 1
        ⟨[], [⟨"tenant-a", "n1", "tr-1", "a", "a", 0, 1, none⟩,
              ⟨"tenant-a", "n1", "tr-1", "a", "b", 0, 1, none⟩]⟩
      = (((fetchRoutes
            ⟨[], [⟨"tenant-a", "n1", "tr-1", "a", "a", 0, 1, none⟩,
                  ⟨"tenant-a", "n1", "tr-1", "a", "b", 0, 1, none⟩]⟩ "tr-1").take 1).foldl
          (creditRoute "tenant-a" ⟨"tr-1", some 1, none, []⟩ 0)
          ⟨[], [⟨"tenant-a", "n1", "tr-1", "a", "a", 0, 1, none⟩,
                ⟨"tenant-a", "n1", "tr-1", "a", "b", 0, 1, none⟩]⟩, .serverError) :=
  C10_partial_persistence "tenant-a" ⟨"tr-1", some 1, none, []⟩ 0
    ⟨[], [⟨"tenant-a", "n1", "tr-1", "a", "a", 0, 1, none⟩,
          ⟨"tenant-a", "n1", "tr-1", "a", "b", 0, 1, none⟩]⟩ 1
    (by norm_num [fetchRoutes, sortByHop, insertByHop, List.filter])

/-! ## Claim C9: process-wide dynamic-limit cache shared across tenants -/

/-- C9: the dynamic neighbour cap at broadcast is computed from one
process-wide cached edge count that is not keyed by tenant.  With 400
edges for tenant-a and none for tenant-b, tenant-a broadcasts at time 0
and tenant-b broadcasts 100 seconds later, inside the 300-second cache
TTL: the second call returns the cap 40 derived from the tenant-a count,
while the cap computed from the tenant-b count itself would be 20. -/
theorem C9_cache_not_tenant_keyed :
    (get_dynamic_limit (fun t => if t = "tenant-a" then 400 else 0) "tenant-b" 100
        (get_dynamic_limit (fun t => if t = "tenant-a" then 400 else 0) "tenant-a" 0
          ⟨0, none⟩).2).1 = 40
    ∧ min MAX_NEIGHBOR_LIMIT (max MIN_NEIGHBOR_LIMIT
        ((fun (t : String) => if t = "tenant-a" then 400 else 0) "tenant-a" / 10)) = 40
    ∧ min MAX_NEIGHBOR_LIMIT (max MIN_NEIGHBOR_LIMIT
        ((fun (t : String) => if t = "tenant-a" then 400 else 0) "tenant-b" / 10)) = 20
    ∧ (100 : ℚ) - 0 < EDGE_COUNT_CACHE_TTL_SEC
    ∧ "tenant-a" ≠ "tenant-b" := by
  refine ⟨?_, by decide, by decide, by norm_num [EDGE_COUNT_CACHE_TTL_SEC], by decide⟩
  norm_num [get_dynamic_limit, MAX_NEIGHBOR_LIMIT, MIN_NEIGHBOR_LIMIT,
    EDGE_COUNT_CACHE_TTL_SEC]

/-! ## Claim C3: collect diversification admits duplicate source agents -/

/-- C3: refutation of the per-source-agent diversification statement.
With diversify on, top_k = 2 and an over-fetched ranked buffer holding
two rows of agent-a followed by one row of agent-b, the walk admits the
two agent-a rows, because its admission test also accepts any row while
fewer than top_k rows are admitted.  The buffer contains 2 distinct
source agents, yet the returned rows do not have pairwise-distinct
agents. -/
theorem C3_diversify_admits_duplicates :
    collect_select true 2
        [⟨"m1", "agent-a", "insight", 1, 9/10⟩,
         ⟨"m2", "agent-a", "insight", 1, 8/10⟩,
         ⟨"m3", "agent-b", "insight", 1, 7/10⟩]
      = [⟨"m1", "agent-a", "insight", 1, 9/10⟩,
         ⟨"m2", "agent-a", "insight", 1, 8/10⟩]
    ∧ ¬ (List.map MemRow.agent_id (collect_select true 2
        [⟨"m1", "agent-a", "insight", 1, 9/10⟩,
         ⟨"m2", "agent-a", "insight", 1, 8/10⟩,
         ⟨"m3", "agent-b", "insight", 1, 7/10⟩])).Nodup
    ∧ (List.map MemRow.agent_id
        [⟨"m1", "agent-a", "insight", (1:ℚ), 9/10⟩,
         ⟨"m2", "agent-a", "insight", 1, 8/10⟩,
         ⟨"m3", "agent-b", "insight", 1, 7/10⟩]).dedup.length = 2 := by
  refine ⟨rfl, ?_, by decide⟩
  rw [show collect_select true 2
        [⟨"m1", "agent-a", "insight", 1, 9/10⟩,
         ⟨"m2", "agent-a", "insight", 1, 8/10⟩,
         ⟨"m3", "agent-b", "insight", 1, 7/10⟩]
      = [⟨"m1", "agent-a", "insight", 1, 9/10⟩,
         ⟨"m2", "agent-a", "insight", 1, 8/10⟩] from rfl]
  decide

/-! ## Claim C4: born-expired broadcast answers 500, not 409 -/

/-- C4: refutation of the conflict-status statement.  With a drift of two
seconds between the created_at reading and the TTL check, a nutrient with
ttl_sec 1 and max_hops 1 fails the TTL gate; the gate raises HTTPException
409 inside the try block, but the single except-Exception handler of
broadcast_nutrient catches it and re-raises HTTPException 500, so the
caller observes status 500 and never 409. -/
theorem C4_conflict_swallowed :
    TTLChecker_can_forward 2 1 1 = false
    ∧ broadcast_try_body 2 1 1 (.ok ()) = .error (.http 409)
    ∧ broadcast_nutrient 2 1 1 (.ok ()) = .error (.http 500) := by
  refine ⟨?_, ?_, ?_⟩ <;> norm_num [TTLChecker_can_forward, broadcast_try_body,
    broadcast_nutrient]

/-! ## Claim C8: per-neighbor routing score -/

/-- C8 counterexample: with zero similarity, unit edge weight, zero
demand overlap, tool-hint list containing the hint a twice and a
capability list containing a once, the code counts the duplicate hint
twice (boost 0.10, score 0.10), while the formula of the claim over the
SET of tool hints gives boost 0.05 and score 0.05, so the claimed
equality fails. -/
theorem C8_counterexample :
    calculate_routing_score 0 1 0 ["a", "a"] ["a"] = 1/10
    ∧ routing_score_specC8 0 1 0 ["a", "a"] ["a"] = 1/20
    ∧ calculate_routing_score 0 1 0 ["a", "a"] ["a"]
        ≠ routing_score_specC8 0 1 0 ["a", "a"] ["a"] := by
  refine ⟨?_, ?_, ?_⟩ <;>
    norm_num [calculate_routing_score, routing_score_specC8, np_clip, maxQ, minQ,
      capability_boost, capability_boost_specC8, capability_matching_count,
      CAPABILITY_BOOST_PER_MATCH, CAPABILITY_BOOST_MAX_MATCHES, List.dedup,
      List.filter]

/-- C8 amended: the per-neighbor routing score equals
clamp(s w (0.5 + 0.5 d) + 0.05 min(m, 4), 0, 2) where m counts the
tool-hint entries (with multiplicity) that occur in the capability list;
when the tool-hint list has no duplicates this agrees with the set-based
formula of the claim. -/
theorem C8_routing_score (similarity edge_weight demand_overlap : ℚ)
    (hints caps : List String) :
    calculate_routing_score similarity edge_weight demand_overlap hints caps
      = maxQ 0 (minQ 2 (similarity * edge_weight * (1/2 + 1/2 * demand_overlap)
          + 5/100 * ((min ((hints.filter (fun t => t ∈ caps)).length) 4 : ℕ) : ℚ)))
    ∧ (hints.Nodup →
        calculate_routing_score similarity edge_weight demand_overlap hints caps
          = routing_score_specC8 similarity edge_weight demand_overlap hints caps) := by
  constructor
  · simp [calculate_routing_score, np_clip, capability_boost,
      capability_matching_count, CAPABILITY_BOOST_PER_MATCH,
      CAPABILITY_BOOST_MAX_MATCHES]
  · intro hnd
    simp [calculate_routing_score, routing_score_specC8, capability_boost,
      capability_boost_specC8, capability_matching_count, List.Nodup.dedup hnd]

/-- Witness for C8 at a duplicate-free hint list. -/
theorem C8_routing_score_witness :
    calculate_routing_score 0 1 0 ["a"] ["b"]
      = routing_score_specC8 0 1 0 ["a"] ["b"] :=
  (C8_routing_score 0 1 0 ["a"] ["b"]).2 (by decide)

/-! ## Claim C6: edge weights always stay inside [0.01, 1.5] -/

theorem creditRoute_range (tenant_id : String) (request : OutcomeRequest)
    (now : ℤ) (db : DB) (route : RouteRow) (h : EdgesInRange db) :
    EdgesInRange (creditRoute tenant_id request now db route) := by
  intro p hp
  simp only [creditRoute] at hp
  rcases hfe : findEdge db.edges ⟨tenant_id, route.src_agent, route.dst_agent⟩ with _ | e
  · rw [hfe] at hp
    simp only [updateEdge, List.mem_map] at hp
    obtain ⟨q, hq, rfl⟩ := hp
    by_cases hqk : q.1 = ⟨tenant_id, route.src_agent, route.dst_agent⟩
    · simp only [if_pos hqk]
      exact ⟨clamp_weight_lower _, clamp_weight_upper _⟩
    · simp only [if_neg hqk]
      rcases List.mem_append.mp hq with hq2 | hq2
      · exact h q hq2
      · have : q = (⟨tenant_id, route.src_agent, route.dst_agent⟩, freshEdgeRow now) := by
          simpa using hq2
        rw [this] at hqk
        simp at hqk
  · rw [hfe] at hp
    simp only [updateEdge, List.mem_map] at hp
    obtain ⟨q, hq, rfl⟩ := hp
    by_cases hqk : q.1 = ⟨tenant_id, route.src_agent, route.dst_agent⟩
    · simp only [if_pos hqk]
      exact ⟨clamp_weight_lower _, clamp_weight_upper _⟩
    · simp only [if_neg hqk]
      exact h q hq

theorem foldl_creditRoute_range (tenant_id : String) (request : OutcomeRequest)
    (now : ℤ) :
    ∀ (l : List RouteRow) (db : DB), EdgesInRange db →
      EdgesInRange (l.foldl (creditRoute tenant_id request now) db) := by
  intro l
  induction l with
  | nil => intro db h; simpa using h
  | cons r rs ih =>
    intro db h
    exact ih (creditRoute tenant_id request now db r) (creditRoute_range _ _ _ _ _ h)

/-- C6: every operation that mutates an edge weight leaves the persisted
weight inside [0.01, 1.5]: the outcome endpoint preserves the range
invariant of the table, the lazily created row carries weight 0.1 which
is inside the range, the clamp itself maps everything into the range, the
decay path stores a clamped value inside the range, and a decay pass over
a table satisfying the range invariant preserves it. -/
theorem C6_weight_range_invariant (tenant_id : String) (request : OutcomeRequest)
    (now : ℤ) (db : DB) (h : EdgesInRange db) :
    EdgesInRange (record_outcome tenant_id request now db).1
    ∧ (∀ t : ℤ, MIN_WEIGHT ≤ (freshEdgeRow t).w ∧ (freshEdgeRow t).w ≤ MAX_WEIGHT)
    ∧ (∀ w : ℚ, MIN_WEIGHT ≤ clamp_weight w ∧ clamp_weight w ≤ MAX_WEIGHT)
    ∧ (∀ w days : ℝ, 1/100 ≤ clamp_weightR (calculate_time_decay w days)
        ∧ clamp_weightR (calculate_time_decay w days) ≤ 3/2)
    ∧ (∀ (now2 : ℝ) (edges : List DecayEdge),
        (∀ e ∈ edges, (1:ℝ)/100 ≤ e.w ∧ e.w ≤ 3/2) →
        ∀ e2 ∈ run_time_decay now2 edges, (1:ℝ)/100 ≤ e2.w ∧ e2.w ≤ 3/2) := by
  refine ⟨?_, ?_, ?_, ?_, ?_⟩
  · unfold record_outcome
    rcases hr : fetchRoutes db request.trace_id with _ | ⟨r, rs⟩
    · simpa using h
    · exact foldl_creditRoute_range tenant_id request now (r :: rs) db h
  · intro t
    norm_num [freshEdgeRow, MIN_WEIGHT, MAX_WEIGHT]
  · intro w
    exact ⟨clamp_weight_lower w, clamp_weight_upper w⟩
  · intro w days
    unfold clamp_weightR
    constructor
    · exact le_max_left _ _
    · exact max_le (by norm_num) (min_le_left _ _)
  · intro now2 edges hall e2 he2
    simp only [run_time_decay, List.mem_filterMap] at he2
    obtain ⟨e, he, hfe⟩ := he2
    by_cases hst : e.last_update < now2 - 3600
    · rw [if_pos hst] at hfe
      rcases hact : decayEdgeAction e.w ((now2 - e.last_update) / 86400) with _ | nw | _
      · rw [hact] at hfe
        simp at hfe
      · rw [hact] at hfe
        have hnw : nw = clamp_weightR
            (calculate_time_decay e.w ((now2 - e.last_update) / 86400)) := by
          simp only [decayEdgeAction] at hact
          split at hact
          · exact DecayAction.noConfusion hact
          · split at hact
            · cases hact
              rfl
            · exact DecayAction.noConfusion hact
        have he2e : e2 = { e with w := nw } := by
          simpa using hfe.symm
        rw [he2e, hnw]
        constructor
        · exact le_max_left _ _
        · exact max_le (by norm_num) (min_le_left _ _)
      · rw [hact] at hfe
        have he2e : e2 = e := by simpa using hfe.symm
        rw [he2e]
        exact hall e he
    · rw [if_neg hst] at hfe
      have he2e : e2 = e := by simpa using hfe.symm
      rw [he2e]
      exact hall e he

/-- Witness for C6 on the empty table and a concrete outcome report. -/
theorem C6_weight_range_invariant_witness :
    EdgesInRange (record_outcome "t" ⟨"tr", some 1, none, []⟩ 0 ⟨[], []⟩).1 :=
  (C6_weight_range_invariant "t" ⟨"tr", some 1, none, []⟩ 0 ⟨[], []⟩
    (by simp [EdgesInRange])).1

/-! ## Claim C7: time-decay pass -/

theorem clamp_weightR_lt_stale_iff (x : ℝ) :
    clamp_weightR x < 2/100 ↔ x < 2/100 := by
  unfold clamp_weightR
  rw [max_lt_iff, min_lt_iff]
  constructor
  · rintro ⟨h1, h2 | h2⟩
    · norm_num at h2
    · exact h2
  · intro hx
    exact ⟨by norm_num, Or.inr hx⟩

theorem decayEdgeAction_delete_iff (w days : ℝ) :
    decayEdgeAction w days = .delete
      ↔ (calculate_time_decay w days < 2/100 ∧ days > 30) := by
  constructor
  · intro h
    by_cases hc : clamp_weightR (calculate_time_decay w days) < STALE_EDGE_MIN_WEIGHT
        ∧ days > STALE_EDGE_MAX_AGE_DAYS
    · refine ⟨?_, ?_⟩
      · have := hc.1
        rw [show STALE_EDGE_MIN_WEIGHT = (2:ℝ)/100 from by
          norm_num [STALE_EDGE_MIN_WEIGHT]] at this
        exact (clamp_weightR_lt_stale_iff _).mp this
      · have := hc.2
        rwa [show STALE_EDGE_MAX_AGE_DAYS = (30:ℝ) from by
          norm_num [STALE_EDGE_MAX_AGE_DAYS]] at this
    · exfalso
      simp only [decayEdgeAction, if_neg hc] at h
      split at h
      · exact DecayAction.noConfusion h
      · exact DecayAction.noConfusion h
  · intro hc
    have hc2 : clamp_weightR (calculate_time_decay w days) < STALE_EDGE_MIN_WEIGHT
        ∧ days > STALE_EDGE_MAX_AGE_DAYS := by
      constructor
      · rw [show STALE_EDGE_MIN_WEIGHT = (2:ℝ)/100 from by
          norm_num [STALE_EDGE_MIN_WEIGHT]]
        exact (clamp_weightR_lt_stale_iff _).mpr hc.1
      · rw [show STALE_EDGE_MAX_AGE_DAYS = (30:ℝ) from by
          norm_num [STALE_EDGE_MAX_AGE_DAYS]]
        exact hc.2
    simp only [decayEdgeAction, if_pos hc2]

/-- C7 counterexample: an edge holding the minimum weight 0.01 that is two
days stale.  The raw decayed value w times exp(-0.01 times 2) differs
from w, so the claim as stated requires an update; the code clamps the
decayed value back to 0.01 first, the clamped value equals the stored
one, and the edge is not updated (action keep). -/
theorem C7_counterexample :
    decayEdgeAction (1/100) 2 = .keep
    ∧ calculate_time_decay (1/100) 2 ≠ 1/100 := by
  have hexp1 : Real.exp (-TIME_DECAY_LAMBDA * 2) < 1 := by
    rw [Real.exp_lt_one_iff]
    norm_num [TIME_DECAY_LAMBDA]
  have hexp0 : 0 < Real.exp (-TIME_DECAY_LAMBDA * 2) := Real.exp_pos _
  have hlt : calculate_time_decay (1/100) 2 < 1/100 := by
    unfold calculate_time_decay
    nlinarith
  have hpos : 0 < calculate_time_decay (1/100) 2 := by
    unfold calculate_time_decay
    positivity
  have hcl : clamp_weightR (calculate_time_decay (1/100) 2) = 1/100 := by
    unfold clamp_weightR
    rw [min_eq_right (by linarith), max_eq_left (by linarith)]
  constructor
  · simp only [decayEdgeAction, hcl]
    rw [if_neg (by
      rintro ⟨-, h30⟩
      rw [show STALE_EDGE_MAX_AGE_DAYS = (30:ℝ) from by
        norm_num [STALE_EDGE_MAX_AGE_DAYS]] at h30
      norm_num at h30)]
    rw [if_neg (by simp)]
  · exact ne_of_lt hlt

/-- C7 amended: the decay pass considers exactly the edges not updated in
the last hour; for each it computes the clamped value
clamp(w exp(-0.01 days_stale), 0.01, 1.5), deletes the edge iff the raw
decayed value is below 0.02 and days_stale exceeds 30 (the clamp does not
change this test), otherwise updates the stored weight to the clamped
value iff the clamped value differs from w; an edge of weight 0.015 that
is 40 days stale is deleted in one tick. -/
theorem C7_time_decay (now : ℝ) (e : DecayEdge)
    (hst : e.last_update < now - 3600) :
    (decayEdgeAction e.w ((now - e.last_update) / 86400) = .delete
      ↔ (calculate_time_decay e.w ((now - e.last_update) / 86400) < 2/100
          ∧ (now - e.last_update) / 86400 > 30))
    ∧ (¬ (calculate_time_decay e.w ((now - e.last_update) / 86400) < 2/100
          ∧ (now - e.last_update) / 86400 > 30) →
        (decayEdgeAction e.w ((now - e.last_update) / 86400)
            = .update (clamp_weightR
                (calculate_time_decay e.w ((now - e.last_update) / 86400)))
          ↔ clamp_weightR (calculate_time_decay e.w ((now - e.last_update) / 86400))
              ≠ e.w))
    ∧ (run_time_decay now [e] = []
        ↔ decayEdgeAction e.w ((now - e.last_update) / 86400) = .delete)
    ∧ (∀ (now2 : ℝ) (e2 : DecayEdge), ¬ e2.last_update < now2 - 3600 →
        run_time_decay now2 [e2] = [e2])
    ∧ decayEdgeAction (15/1000) 40 = .delete := by
  refine ⟨decayEdgeAction_delete_iff _ _, ?_, ?_, ?_, ?_⟩
  · intro hnc
    have hnc2 : ¬ (clamp_weightR (calculate_time_decay e.w ((now - e.last_update) / 86400))
        < STALE_EDGE_MIN_WEIGHT ∧ (now - e.last_update) / 86400 > STALE_EDGE_MAX_AGE_DAYS) := by
      intro hc
      apply hnc
      refine ⟨?_, ?_⟩
      · have := hc.1
        rw [show STALE_EDGE_MIN_WEIGHT = (2:ℝ)/100 from by
          norm_num [STALE_EDGE_MIN_WEIGHT]] at this
        exact (clamp_weightR_lt_stale_iff _).mp this
      · have := hc.2
        rwa [show STALE_EDGE_MAX_AGE_DAYS = (30:ℝ) from by
          norm_num [STALE_EDGE_MAX_AGE_DAYS]] at this
    simp only [decayEdgeAction, if_neg hnc2]
    by_cases hne : clamp_weightR (calculate_time_decay e.w ((now - e.last_update) / 86400))
        ≠ e.w
    · rw [if_pos hne]
      simp [hne]
    · rw [if_neg hne]
      simp [hne]
  · rcases hact : decayEdgeAction e.w ((now - e.last_update) / 86400) with _ | nw | _
    · simp [run_time_decay, if_pos hst, hact]
    · simp [run_time_decay, if_pos hst, hact]
    · simp [run_time_decay, if_pos hst, hact]
  · intro now2 e2 hfresh
    simp [run_time_decay, if_neg hfresh]
  · rw [decayEdgeAction_delete_iff]
    have hexp1 : Real.exp (-TIME_DECAY_LAMBDA * 40) < 1 := by
      rw [Real.exp_lt_one_iff]
      norm_num [TIME_DECAY_LAMBDA]
    have hexp0 : 0 < Real.exp (-TIME_DECAY_LAMBDA * 40) := Real.exp_pos _
    constructor
    · unfold calculate_time_decay
      nlinarith
    · norm_num

/-- Witness for C7 on a fresh edge that the pass must leave untouched. -/
theorem C7_time_decay_witness :
    run_time_decay 0 [⟨"t", "a", "b", 1, 100⟩] = [⟨"t", "a", "b", 1, 100⟩] :=
  (C7_time_decay 7200 ⟨"t", "s", "d", 1, 0⟩ (by norm_num)).2.2.2.1
    0 ⟨"t", "a", "b", 1, 100⟩ (by norm_num)

/-! ## Claim C5: MMR selection -/

theorem mem_insertByScoreDesc (score : ℕ → ℚ) (x y : ℕ) (l : List ℕ) :
    y ∈ insertByScoreDesc score x l ↔ y = x ∨ y ∈ l := by
  induction l with
  | nil => simp [insertByScoreDesc]
  | cons z zs ih =>
    by_cases h : score x < score z
    · simp only [insertByScoreDesc, if_pos h, List.mem_cons, ih]
      tauto
    · simp only [insertByScoreDesc, if_neg h, List.mem_cons]

theorem mem_sortByScoreDesc (score : ℕ → ℚ) (l : List ℕ) (y : ℕ) :
    y ∈ sortByScoreDesc score l ↔ y ∈ l := by
  induction l with
  | nil => simp [sortByScoreDesc]
  | cons x xs ih =>
    show y ∈ insertByScoreDesc score x (sortByScoreDesc score xs) ↔ _
    rw [mem_insertByScoreDesc]
    simp [ih]

theorem pairwise_insertByScoreDesc (score : ℕ → ℚ) (x : ℕ) (m : List ℕ)
    (hp : m.Pairwise (fun a b => score b ≤ score a)) :
    (insertByScoreDesc score x m).Pairwise (fun a b => score b ≤ score a) := by
  induction m with
  | nil => simp [insertByScoreDesc]
  | cons z zs ih =>
    rcases List.pairwise_cons.mp hp with ⟨hz, hzs⟩
    by_cases h : score x < score z
    · simp only [insertByScoreDesc, if_pos h]
      refine List.pairwise_cons.mpr ⟨?_, ih hzs⟩
      intro b hb
      rcases (mem_insertByScoreDesc score x b zs).mp hb with rfl | hb2
      · exact le_of_lt h
      · exact hz b hb2
    · simp only [insertByScoreDesc, if_neg h]
      refine List.pairwise_cons.mpr ⟨?_, hp⟩
      intro b hb
      rcases List.mem_cons.mp hb with rfl | hb2
      · exact le_of_not_lt h
      · exact le_trans (hz b hb2) (le_of_not_lt h)

theorem pairwise_sortByScoreDesc (score : ℕ → ℚ) (l : List ℕ) :
    (sortByScoreDesc score l).Pairwise (fun a b => score b ≤ score a) := by
  induction l with
  | nil => simp [sortByScoreDesc]
  | cons x xs ih => exact pairwise_insertByScoreDesc score x _ ih

theorem sortByScoreDesc_head_max (score : ℕ → ℚ) (l : List ℕ) (first : ℕ)
    (rest : List ℕ) (h : sortByScoreDesc score l = first :: rest) :
    ∀ i ∈ l, score i ≤ score first := by
  intro i hi
  have hmem : i ∈ first :: rest := by
    rw [← h, mem_sortByScoreDesc]
    exact hi
  rcases List.mem_cons.mp hmem with rfl | hm
  · exact le_refl _
  · have hp := pairwise_sortByScoreDesc score l
    rw [h] at hp
    exact (List.pairwise_cons.mp hp).1 i hm

theorem length_insertByScoreDesc (score : ℕ → ℚ) (x : ℕ) (l : List ℕ) :
    (insertByScoreDesc score x l).length = l.length + 1 := by
  induction l with
  | nil => simp [insertByScoreDesc]
  | cons z zs ih =>
    by_cases h : score x < score z <;> simp [insertByScoreDesc, h, ih]

theorem length_sortByScoreDesc (score : ℕ → ℚ) (l : List ℕ) :
    (sortByScoreDesc score l).length = l.length := by
  induction l with
  | nil => rfl
  | cons x xs ih =>
    show (insertByScoreDesc score x (sortByScoreDesc score xs)).length = xs.length + 1
    rw [length_insertByScoreDesc, ih]

theorem pickBest_cons_none (f : ℕ → ℚ) (x : ℕ) (xs : List ℕ)
    (h : pickBest f xs = none) : pickBest f (x :: xs) = some (x, xs) := by
  simp only [pickBest, h]

theorem pickBest_cons_some (f : ℕ → ℚ) (x y : ℕ) (xs ys : List ℕ)
    (h : pickBest f xs = some (y, ys)) :
    pickBest f (x :: xs) = if f x < f y then some (y, x :: ys) else some (x, xs) := by
  simp only [pickBest, h]

theorem pickBest_eq_none (f : ℕ → ℚ) (l : List ℕ) (h : pickBest f l = none) :
    l = [] := by
  cases l with
  | nil => rfl
  | cons x xs =>
    exfalso
    rcases hx : pickBest f xs with _ | ⟨y, ys⟩
    · rw [pickBest_cons_none f x xs hx] at h
      simp at h
    · rw [pickBest_cons_some f x y xs ys hx] at h
      split at h <;> simp at h

theorem pickBest_spec (f : ℕ → ℚ) :
    ∀ (l : List ℕ) (c : ℕ) (rest : List ℕ), pickBest f l = some (c, rest) →
      c ∈ l ∧ ∀ y ∈ l, f y ≤ f c := by
  intro l
  induction l with
  | nil => intro c rest h; simp [pickBest] at h
  | cons x xs ih =>
    intro c rest h
    rcases hx : pickBest f xs with _ | ⟨y, ys⟩
    · rw [pickBest_cons_none f x xs hx] at h
      have hxs : xs = [] := pickBest_eq_none f xs hx
      obtain ⟨rfl, rfl⟩ : x = c ∧ xs = rest := by simpa using h
      subst hxs
      refine ⟨List.mem_cons_self _ _, ?_⟩
      intro z hz
      rcases List.mem_cons.mp hz with rfl | hz2
      · exact le_refl _
      · simp at hz2
    · rw [pickBest_cons_some f x y xs ys hx] at h
      obtain ⟨hymem, hymax⟩ := ih y ys hx
      split at h
      · rename_i hlt
        obtain ⟨rfl, rfl⟩ : y = c ∧ x :: ys = rest := by simpa using h
        refine ⟨List.mem_cons_of_mem x hymem, ?_⟩
        intro z hz
        rcases List.mem_cons.mp hz with rfl | hz2
        · exact le_of_lt hlt
        · exact hymax z hz2
      · rename_i hnlt
        obtain ⟨rfl, rfl⟩ : x = c ∧ xs = rest := by simpa using h
        refine ⟨List.mem_cons_self _ _, ?_⟩
        intro z hz
        rcases List.mem_cons.mp hz with rfl | hz2
        · exact le_refl _
        · exact le_trans (hymax z hz2) (le_of_not_lt hnlt)

/-- C5 counterexample: four candidates with distinct scores 1, 0.9, 0.8,
0.5 and a symmetric similarity matrix realisable by unit profile vectors.
With k = 3 and lambda = 0.5 the code (min-similarity penalty) selects
candidates 0, 1, 3, while the rule stated in the claim (max-similarity
penalty) selects candidates 0, 1, 2, so the claimed selection rule does
not describe mmr_select. -/
theorem C5_counterexample :
    mmr_select (fun i => [(1:ℚ), 9/10, 4/5, 1/2].getD i 0)
        (fun i j => (([[(1:ℚ), 1/2, 4/5, 1/5], [1/2, 1, 9/10, 9/10],
          [4/5, 9/10, 1, 16/25], [1/5, 9/10, 16/25, 1]].getD i []).getD j 0))
        4 3 LAMBDA_DIVERSITY = [0, 1, 3]
    ∧ mmr_select_specC5 (fun i => [(1:ℚ), 9/10, 4/5, 1/2].getD i 0)
        (fun i j => (([[(1:ℚ), 1/2, 4/5, 1/5], [1/2, 1, 9/10, 9/10],
          [4/5, 9/10, 1, 16/25], [1/5, 9/10, 16/25, 1]].getD i []).getD j 0))
        4 3 LAMBDA_DIVERSITY = [0, 1, 2]
    ∧ mmr_select (fun i => [(1:ℚ), 9/10, 4/5, 1/2].getD i 0)
        (fun i j => (([[(1:ℚ), 1/2, 4/5, 1/5], [1/2, 1, 9/10, 9/10],
          [4/5, 9/10, 1, 16/25], [1/5, 9/10, 16/25, 1]].getD i []).getD j 0))
        4 3 LAMBDA_DIVERSITY
      ≠ mmr_select_specC5 (fun i => [(1:ℚ), 9/10, 4/5, 1/2].getD i 0)
        (fun i j => (([[(1:ℚ), 1/2, 4/5, 1/5], [1/2, 1, 9/10, 9/10],
          [4/5, 9/10, 1, 16/25], [1/5, 9/10, 16/25, 1]].getD i []).getD j 0))
        4 3 LAMBDA_DIVERSITY := by
  refine ⟨?_, ?_, ?_⟩ <;>
    norm_num [mmr_select, mmr_select_specC5, sortByScoreDesc, insertByScoreDesc,
      mmr_loop, pickBest, mmr_value, mmr_value_specC5, listMinQ, listMaxQ,
      minQ, maxQ, LAMBDA_DIVERSITY,
      show List.range 4 = [0, 1, 2, 3] from rfl]

/-- C5 amended: when diversity is requested and the above-threshold
candidates exceed top-K, mmr_select seeds the selection with the
highest-scoring candidate and then iteratively adds, among the remaining
candidates, the one maximising lambda score(i) minus (1 - lambda) times
the MINIMUM over already-selected j of sim(i, j), with lambda = 0.5,
until K are selected. -/
theorem C5_mmr_selection (score : ℕ → ℚ) (sim : ℕ → ℕ → ℚ) (n k : ℕ)
    (hk : 0 < k) (hn : k < n) :
    (∃ first rest, sortByScoreDesc score (List.range n) = first :: rest
      ∧ first ∈ List.range n
      ∧ (∀ i ∈ List.range n, score i ≤ score first)
      ∧ mmr_select score sim n k LAMBDA_DIVERSITY
          = mmr_loop (mmr_value score sim LAMBDA_DIVERSITY) k rest.length [first] rest)
    ∧ (∀ (selected cands : List ℕ) (c : ℕ) (rest : List ℕ),
        pickBest (mmr_value score sim LAMBDA_DIVERSITY selected) cands = some (c, rest) →
        c ∈ cands ∧ ∀ d ∈ cands, mmr_value score sim LAMBDA_DIVERSITY selected d
          ≤ mmr_value score sim LAMBDA_DIVERSITY selected c)
    ∧ (∀ (fuel : ℕ) (selected cands : List ℕ) (c : ℕ) (rest : List ℕ),
        selected.length < k →
        pickBest (mmr_value score sim LAMBDA_DIVERSITY selected) cands = some (c, rest) →
        mmr_loop (mmr_value score sim LAMBDA_DIVERSITY) k (fuel + 1) selected cands
          = mmr_loop (mmr_value score sim LAMBDA_DIVERSITY) k fuel (selected ++ [c]) rest) := by
  refine ⟨?_, ?_, ?_⟩
  · rcases hs : sortByScoreDesc score (List.range n) with _ | ⟨first, rest⟩
    · exfalso
      have hlen := length_sortByScoreDesc score (List.range n)
      rw [hs] at hlen
      simp at hlen
      omega
    · refine ⟨first, rest, rfl, ?_, ?_, ?_⟩
      · rw [← mem_sortByScoreDesc score, hs]
        exact List.mem_cons_self _ _
      · exact sortByScoreDesc_head_max score _ first rest hs
      · unfold mmr_select
        rw [if_neg (by omega), if_neg (by omega), hs]
  · intro selected cands c rest h
    exact pickBest_spec _ cands c rest h
  · intro fuel selected cands c rest hlen h
    simp only [mmr_loop, if_pos hlen, h]

/-- Witness for C5 with two flat-scored candidates and k equal to 1. -/
theorem C5_mmr_selection_witness :
    mmr_loop (mmr_value (fun _ => 0) (fun _ _ => 0) LAMBDA_DIVERSITY) 1 1 [] [0]
      = mmr_loop (mmr_value (fun _ => 0) (fun _ _ => 0) LAMBDA_DIVERSITY) 1 0
          ([] ++ [0]) [] :=
  (C5_mmr_selection (fun _ => 0) (fun _ _ => 0) 2 1 (by norm_num)
    (by norm_num)).2.2 0 [] [0] 0 [] (by simp) (by simp [pickBest])
